import Mathlib

/-!
Verification development for the PyExpLabSys telemetry sockets
(`PyExpLabSys/common/sockets.py`) and the websocket subscription gateway
(`machines/websocketserver/websocket_server.py`).

The Python code is shallowly embedded: dictionaries become association
lists with Python-dict update semantics, wall-clock times and timeouts
become integers, Python exceptions become `Option`/`Except` results, and
the external standard-library boundaries (`json.loads`, `json.dumps`,
`str()` rendering of floats and containers) are either modelled by simple
executable functions or taken as parameters.
-/

namespace PyExpLabSys

/-! ### Module constants of sockets.py -/

/-- `BAD_CHARS` from sockets.py: characters not allowed in codenames. -/
def BAD_CHARS : List Char := ['#', ',', ';', ':', '&']

/-- `UNKNOWN_COMMAND` sentinel (typo preserved from the source). -/
def UNKNOWN_COMMAND : String := "UNKNOWN_COMMMAND"

/-- `OLD_DATA` stale-value sentinel. -/
def OLD_DATA : String := "OLD_DATA"

/-- `PUSH_ERROR` reply prefix. -/
def PUSH_ERROR : String := "ERROR"

/-- `PUSH_ACK` reply prefix. -/
def PUSH_ACK : String := "ACK"

/-- `PUSH_EXCEP` reply prefix. -/
def PUSH_EXCEP : String := "EXCEP"

/-- `PUSH_RET` reply prefix. -/
def PUSH_RET : String := "RET"

/-! ### Python dictionaries as association lists

A Python dict is modelled as an association list with at most one binding
per key; `dinsert` is `d[k] = v` (replace in place, or append a fresh
key), `dlookup` is `d[k]` / `d.get(k)`, `dkeys` is `d.keys()`. -/

/-- Lookup in a Python-dict model (`d.get(k)` / `k in d`). -/
def dlookup {α : Type} : List (String × α) → String → Option α
  | [], _ => none
  | (k, v) :: rest, key => if k = key then some v else dlookup rest key

/-- Assignment `d[k] = v` on a Python-dict model. -/
def dinsert {α : Type} : List (String × α) → String → α → List (String × α)
  | [], k, v => [(k, v)]
  | (k', v') :: rest, k, v =>
    if k' = k then (k, v) :: rest else (k', v') :: dinsert rest k v

/-- The key list of a Python-dict model (`d.keys()`). -/
def dkeys {α : Type} (m : List (String × α)) : List String :=
  m.map Prod.fst

theorem dlookup_dinsert_self {α : Type} (m : List (String × α)) (k : String) (v : α) :
    dlookup (dinsert m k v) k = some v := by
  induction m with
  | nil => simp [dinsert, dlookup]
  | cons hd tl ih =>
    obtain ⟨k', v'⟩ := hd
    by_cases h : k' = k
    · simp [dinsert, dlookup, h]
    · simp [dinsert, dlookup, h, ih]

theorem dkeys_dinsert_of_mem {α : Type} (m : List (String × α)) (k : String) (v : α)
    (h : k ∈ dkeys m) : dkeys (dinsert m k v) = dkeys m := by
  induction m with
  | nil => simp [dkeys] at h
  | cons hd tl ih =>
    obtain ⟨k', v'⟩ := hd
    simp only [dinsert]
    by_cases hk : k' = k
    · subst hk
      simp [dkeys]
    · have hmem : k ∈ dkeys tl := by
        simp only [dkeys, List.map_cons, List.mem_cons] at h
        rcases h with h1 | h1
        · exact absurd h1.symm hk
        · exact h1
      have htl := ih hmem
      simp only [if_neg hk, dkeys, List.map_cons] at htl ⊢
      rw [htl]

theorem dkeys_dinsert_of_not_mem {α : Type} (m : List (String × α)) (k : String) (v : α)
    (h : k ∉ dkeys m) : dkeys (dinsert m k v) = dkeys m ++ [k] := by
  induction m with
  | nil => simp [dinsert, dkeys]
  | cons hd tl ih =>
    obtain ⟨k', v'⟩ := hd
    simp only [dkeys, List.map_cons, List.mem_cons] at h
    push_neg at h
    have htl := ih (by simpa [dkeys] using h.2)
    simp only [dinsert, if_neg (Ne.symm h.1), dkeys, List.map_cons, List.cons_append] at htl ⊢
    rw [htl]

/-! ### Python `str.split` with a single-character separator -/

/-- Split a character list at every occurrence of `c`, keeping empty
pieces, as Python `s.split(c)` does (so the empty string yields `[""]`). -/
def splitOnChar (c : Char) : List Char → List (List Char)
  | [] => [[]]
  | x :: xs =>
    let r := splitOnChar c xs
    if x = c then [] :: r
    else
      match r with
      | [] => [[x]]
      | y :: ys => (x :: y) :: ys

/-- Python `s.split(c)` for a one-character separator. -/
def pySplit (s : String) (c : Char) : List String :=
  (splitOnChar c s.data).map (fun l => String.mk l)

theorem splitOnChar_ne_nil (c : Char) (l : List Char) : splitOnChar c l ≠ [] := by
  cases l with
  | nil => simp [splitOnChar]
  | cons x xs =>
    simp only [splitOnChar]
    by_cases h : x = c
    · simp [h]
    · simp only [h, if_false]
      cases splitOnChar c xs with
      | nil => simp
      | cons y ys => simp

theorem splitOnChar_of_not_mem (c : Char) (l : List Char) (h : c ∉ l) :
    splitOnChar c l = [l] := by
  induction l with
  | nil => rfl
  | cons x xs ih =>
    simp only [List.mem_cons] at h
    push_neg at h
    simp [splitOnChar, ih h.2, if_neg (Ne.symm h.1)]

theorem splitOnChar_append (c : Char) (l1 l2 : List Char) (h : c ∉ l1) :
    splitOnChar c (l1 ++ c :: l2) = l1 :: splitOnChar c l2 := by
  induction l1 with
  | nil => simp [splitOnChar]
  | cons x xs ih =>
    simp only [List.mem_cons] at h
    push_neg at h
    simp [List.cons_append, splitOnChar, ih h.2, if_neg (Ne.symm h.1)]

/-- Join a list of strings with a separator (Python `sep.join(items)`). -/
def joinSep (sep : String) : List String → String
  | [] => ""
  | [s] => s
  | s :: rest => s ++ sep ++ joinSep sep rest

/-! ### Python values

`PyVal` covers the Python values that flow through the push/pull
protocols: the four simple types of the `raw_wn` vocabulary, `None`,
lists and string-keyed dicts.  Python floats are modelled as rationals
(the protocols only parse, store and compare them). -/

inductive PyVal where
  | vint : Int → PyVal
  | vfloat : Rat → PyVal
  | vbool : Bool → PyVal
  | vstr : String → PyVal
  | vnone : PyVal
  | vlist : List PyVal → PyVal
  | vdict : List (String × PyVal) → PyVal

/-- A Python dict with string keys, the payload currency of the push side. -/
abbrev PyDict := List (String × PyVal)

/-- The Python type tags (`type(x)`) relevant to raw formatting. -/
inductive PyType where
  | tint | tfloat | tbool | tstr | tnone | tlist | tdict
  deriving DecidableEq

/-- `type(value)` on a `PyVal`. -/
def pyTypeOf : PyVal → PyType
  | .vint _ => .tint
  | .vfloat _ => .tfloat
  | .vbool _ => .tbool
  | .vstr _ => .tstr
  | .vnone => .tnone
  | .vlist _ => .tlist
  | .vdict _ => .tdict

/-- `type.__name__` for the four raw-serializable types (others never
reach serialization because the formatter rejects them first). -/
def typeName : PyType → String
  | .tint => "int"
  | .tfloat => "float"
  | .tbool => "bool"
  | .tstr => "str"
  | .tnone => "NoneType"
  | .tlist => "list"
  | .tdict => "dict"

/-- Rendering of a rational modelling a Python float: integral values
render like Python (`1.0`), others by numerator/denominator.  This is a
boundary model of `str()` on floats; no claim inspects its exact text. -/
def ratStr (q : Rat) : String :=
  if q.den = 1 then toString q.num ++ ".0"
  else toString q.num ++ "/" ++ toString q.den

/-- Boundary model of Python `str(value)` for the values the raw
formatter can actually emit (simple types); containers get a placeholder
since every code path that renders one subsequently raises. -/
def pyStrScalar : PyVal → String
  | .vint n => toString n
  | .vfloat q => ratStr q
  | .vbool b => if b then "True" else "False"
  | .vstr s => s
  | .vnone => "None"
  | .vlist _ => "<list>"
  | .vdict _ => "<dict>"

/-! ### Value parsing (`TYPE_FROM_STRING` and friends) -/

/-- `bool_translate` from sockets.py: only the literal strings `True`
and `False` convert; anything else raises `ValueError` (here `none`). -/
def bool_translate (s : String) : Option Bool :=
  if s = "True" then some true
  else if s = "False" then some false
  else none

/-- Digit-list to number; `none` on an empty list or a non-digit. -/
def digitsToNat : List Char → Option Nat
  | [] => none
  | l =>
    if l.all Char.isDigit then
      some (l.foldl (fun acc c => acc * 10 + (c.toNat - 48)) 0)
    else none

/-- Strip leading and trailing whitespace, as Python `int()`/`float()`
do before parsing. -/
def stripSpaces (l : List Char) : List Char :=
  ((l.dropWhile Char.isWhitespace).reverse.dropWhile Char.isWhitespace).reverse

/-- Model of Python `int(s)`: optional sign, non-empty digit run,
surrounding whitespace allowed; anything else raises (here `none`). -/
def parsePyInt (s : String) : Option Int :=
  match stripSpaces s.data with
  | '-' :: ds => (digitsToNat ds).map (fun n => -(n : Int))
  | '+' :: ds => (digitsToNat ds).map (fun n => (n : Int))
  | ds => (digitsToNat ds).map (fun n => (n : Int))

/-- Mantissa and optional exponent of a float literal (split at the
first `e`/`E`). -/
def parseFloatMag (l : List Char) : Option Rat :=
  let mant := l.takeWhile (fun c => c ≠ 'e' ∧ c ≠ 'E')
  let rest := l.dropWhile (fun c => c ≠ 'e' ∧ c ≠ 'E')
  let ipart := mant.takeWhile (fun c => c ≠ '.')
  let fpartAndDot := mant.dropWhile (fun c => c ≠ '.')
  let fpart := fpartAndDot.drop 1
  if ipart.all Char.isDigit ∧ fpart.all Char.isDigit ∧ (ipart ≠ [] ∨ fpart ≠ []) ∧
      (fpartAndDot = [] ∨ fpartAndDot.take 1 = ['.']) then
    let mval : Rat :=
      ((ipart.foldl (fun acc c => acc * 10 + (c.toNat - 48)) 0 : Nat) : Rat) +
        ((fpart.foldl (fun acc c => acc * 10 + (c.toNat - 48)) 0 : Nat) : Rat) /
          ((10 : Rat) ^ fpart.length)
    match rest with
    | [] => some mval
    | _ :: expChars =>
      match expChars with
      | '-' :: ds => (digitsToNat ds).map (fun n => mval / (10 : Rat) ^ n)
      | '+' :: ds => (digitsToNat ds).map (fun n => mval * (10 : Rat) ^ n)
      | ds => (digitsToNat ds).map (fun n => mval * (10 : Rat) ^ n)
  else none

/-- Model of Python `float(s)` on the decimal grammar (strip, optional
sign, digits with optional fraction, optional exponent). -/
def parsePyFloat (s : String) : Option Rat :=
  match stripSpaces s.data with
  | '-' :: rest => (parseFloatMag rest).map (fun q => -q)
  | '+' :: rest => parseFloatMag rest
  | rest => parseFloatMag rest

/-- `TYPE_FROM_STRING` from sockets.py: type tag to conversion function;
an unknown tag is a `KeyError` (here `none`).  `str` conversion never
fails. -/
def TYPE_FROM_STRING (tag : String) : Option (String → Option PyVal) :=
  if tag = "int" then some (fun s => (parsePyInt s).map PyVal.vint)
  else if tag = "float" then some (fun s => (parsePyFloat s).map PyVal.vfloat)
  else if tag = "str" then some (fun s => some (PyVal.vstr s))
  else if tag = "bool" then some (fun s => (bool_translate s).map PyVal.vbool)
  else none

/-- `Option`-valued `mapM` over a list, written out so that proofs and
kernel evaluation stay elementary. -/
def optMapM {α β : Type} (f : α → Option β) : List α → Option (List β)
  | [] => some []
  | a :: as =>
    match f a, optMapM f as with
    | some b, some bs => some (b :: bs)
    | _, _ => none

theorem optMapM_length {α β : Type} (f : α → Option β) (l : List α) (l' : List β)
    (h : optMapM f l = some l') : l'.length = l.length := by
  induction l generalizing l' with
  | nil => simp [optMapM] at h; simp [← h]
  | cons a as ih =>
    simp only [optMapM] at h
    cases hfa : f a with
    | none => rw [hfa] at h; simp at h
    | some b =>
      rw [hfa] at h
      cases hrest : optMapM f as with
      | none => rw [hrest] at h; simp at h
      | some bs =>
        rw [hrest] at h
        simp at h
        subst h
        simp [ih bs hrest]

/-! ### Channel store of the pull sockets

One entry of the module-level `DATA` dict for a pull-style socket server:
the `'type'`, `'name'`, `'codenames'`, `'data'`, `'timeouts'` and
`'timestamps'` fields.  The `'type'` key is absent (`none`) until the
concrete subclass sets it. -/

/-- The `'type'` field: `'date'`, `'data'` or `'live'`. -/
inductive StoreKind where
  | date | data | live
  deriving DecidableEq

/-- One pull-socket entry of the `DATA` module variable. -/
structure PullStoreState where
  ptype : Option StoreKind
  name : String
  codenames : List String
  data : List (String × (Int × Int))
  timeouts : List (String × Option Int)
  timestamps : List (String × Int)

/-- `DATA[port]['timeouts'].get(codename)`: `None` both when the key is
absent and when the stored timeout is `None`. -/
def timeoutOf (st : PullStoreState) (c : String) : Option Int :=
  (dlookup st.timeouts c).join

/-- The reference time of the staleness rule: the point's own first
component for `date` stores, the recorded set-timestamp for `data`
(x/y) stores. -/
def refTime (st : PullStoreState) (c : String) : Option Int :=
  match st.ptype with
  | some .date => (dlookup st.data c).map Prod.fst
  | some .data => dlookup st.timestamps c
  | _ => none

/-- `PullUDPHandler._old_data`: `none` models the `NotImplementedError`
raised for store types other than `'date'` and `'data'`, and the
`KeyError` of a missing dict entry. -/
def old_data (st : PullStoreState) (c : String) (now : Int) : Option Bool :=
  match st.ptype with
  | some .date =>
    match timeoutOf st c with
    | none => some false
    | some t =>
      match dlookup st.data c with
      | none => none
      | some p => some (decide (now - p.1 > t))
  | some .data =>
    match timeoutOf st c with
    | none => some false
    | some t =>
      match dlookup st.timestamps c with
      | none => none
      | some ts => some (decide (now - ts > t))
  | _ => none

/-- `'{},{}'.format(*point)`. -/
def fmtPoint (p : Int × Int) : String :=
  toString p.1 ++ "," ++ toString p.2

/-- `json.dumps` of a string (no escaping needed for the sentinel). -/
def jsonStr (s : String) : String := "\"" ++ s ++ "\""

/-- `json.dumps` of a point `[x, y]`. -/
def jsonPoint (p : Int × Int) : String :=
  "[" ++ toString p.1 ++ ", " ++ toString p.2 ++ "]"

/-- The per-codename raw read shared by `_single_value` and the `raw`
branch of `_all_values`: the stale sentinel replaces the point when
`_old_data` answers true. -/
def readRawPoint (st : PullStoreState) (c : String) (now : Int) : Option String :=
  match old_data st c now with
  | none => none
  | some true => some OLD_DATA
  | some false => (dlookup st.data c).map fmtPoint

/-- `PullUDPHandler._single_value` on the already-split command
`name#command`. -/
def single_value (st : PullStoreState) (name command : String) (now : Int) :
    Option String :=
  if command = "raw" ∧ (dlookup st.data name).isSome then
    readRawPoint st name now
  else if command = "json" ∧ (dlookup st.data name).isSome then
    match old_data st name now with
    | none => none
    | some true => some (jsonStr OLD_DATA)
    | some false => (dlookup st.data name).map jsonPoint
  else some UNKNOWN_COMMAND

/-- The `'raw'` branch of `PullUDPHandler._all_values`: one entry per
codename in creation order, joined with `;`. -/
def all_values_raw (st : PullStoreState) (now : Int) : Option String :=
  (optMapM (fun cn => readRawPoint st cn now) st.codenames).map (joinSep ";")

/-! ### Store creation (`CommonDataPullSocket.__init__`) -/

/-- The duck-typed `timeouts` argument: either a scalar (`None` or one
number, broadcast to every codename) or a per-codename list. -/
inductive Timeouts where
  | scalar : Option Int → Timeouts
  | list : List (Option Int) → Timeouts

/-- The per-codename check-and-store loop of
`CommonDataPullSocket.__init__`: duplicate check, `BAD_CHARS` check,
then initialization of the point and (optionally) the timeout. -/
def initLoop (cns : List String) (dx dy : Int) (it : Bool) :
    List (String × Option Int) → PullStoreState → Except String PullStoreState
  | [], st => .ok st
  | (nm, t) :: rest, st =>
    if cns.count nm > 1 then
      .error ("Codenames must be unique; " ++ nm ++ " is present more than once")
    else
      match BAD_CHARS.find? (fun ch => ch ∈ nm.data) with
      | some ch =>
        .error ("The character " ++ String.mk [ch] ++ " is not allowed in the codenames")
      | none =>
        initLoop cns dx dy it rest
          { st with
            data := dinsert st.data nm (dx, dy)
            timeouts := if it then dinsert st.timeouts nm t else st.timeouts }

/-- The `DATA[port]` entry as first prepared by
`CommonDataPullSocket.__init__` (no type yet, empty dicts). -/
def pullBase (name : String) (cns : List String) : PullStoreState :=
  { ptype := none, name := name, codenames := cns
    data := [], timeouts := [], timestamps := [] }

/-- `CommonDataPullSocket.__init__`: port-in-use check against the
registry of bound ports, timeout arity check, then the per-codename
loop.  OS-level socket errors are outside the model. -/
def commonPullInit (registry : List Nat) (name : String) (cns : List String)
    (port : Nat) (dx dy : Int) (timeouts : Timeouts) (it : Bool) :
    Except String PullStoreState :=
  if port ∈ registry then
    .error ("A UDP server already exists on port: " ++ toString port)
  else
    match timeouts with
    | .list l =>
      if l.length ≠ cns.length then
        .error "If a list of timeouts is supplied, it must have as many items as there are in codenames"
      else initLoop cns dx dy it (cns.zip l) (pullBase name cns)
    | .scalar t => initLoop cns dx dy it (cns.zip (List.replicate cns.length t)) (pullBase name cns)

namespace DataPullSocket

/-- `DataPullSocket.set_point`: overwrites the point and the timestamp
(defaulting the timestamp to the current time) with no codename check. -/
def set_point (st : PullStoreState) (codename : String) (point : Int × Int)
    (timestamp : Option Int) (now : Int) : PullStoreState :=
  { st with
    data := dinsert st.data codename point
    timestamps := dinsert st.timestamps codename (timestamp.getD now) }

end DataPullSocket

namespace DateDataPullSocket

/-- `DateDataPullSocket.set_point`: overwrites the point with no
codename check. -/
def set_point (st : PullStoreState) (codename : String) (point : Int × Int) :
    PullStoreState :=
  { st with data := dinsert st.data codename point }

end DateDataPullSocket

namespace LiveSocket

/-- `LiveSocket.set_point`: raises `ValueError` for a codename outside
the channel list, otherwise overwrites the point. -/
def set_point (st : PullStoreState) (codename : String) (point : Int × Int) :
    Except String PullStoreState :=
  if codename ∈ st.codenames then
    .ok { st with data := dinsert st.data codename point }
  else
    .error ("Codename " ++ codename ++ " not recognized")

end LiveSocket

theorem data_append (a b : String) : (a ++ b).data = a.data ++ b.data := by
  cases a; cases b; rfl

theorem fmtPoint_ne_OLD_DATA (p : Int × Int) : fmtPoint p ≠ OLD_DATA := by
  intro h
  have hmem : ',' ∈ (fmtPoint p).data := by
    unfold fmtPoint
    rw [data_append, data_append]
    simp [show ",".data = [','] from rfl]
  rw [h] at hmem
  exact absurd hmem (by decide)

/-- C1.  For a `date` or `data` (x/y) store with a stored point for the
codename (and, for `data`, a recorded set-timestamp), the single-value
`raw` pull read never raises, answers the stale sentinel exactly when
`now - reference_time > T` for a configured timeout `T`, and never
answers the sentinel for a codename with no configured timeout. -/
theorem claim_C1 (st : PullStoreState) (c : String) (now : Int)
    (hk : st.ptype = some StoreKind.date ∨ st.ptype = some StoreKind.data)
    (hd : (dlookup st.data c).isSome = true)
    (hts : st.ptype = some StoreKind.data → (dlookup st.timestamps c).isSome = true) :
    (single_value st c "raw" now).isSome = true ∧
    (single_value st c "raw" now = some OLD_DATA ↔
      ∃ T r, timeoutOf st c = some T ∧ refTime st c = some r ∧ now - r > T) ∧
    (timeoutOf st c = none → single_value st c "raw" now ≠ some OLD_DATA) := by
  obtain ⟨p, hp⟩ : ∃ p, dlookup st.data c = some p := by
    cases h : dlookup st.data c with
    | none => rw [h] at hd; simp at hd
    | some q => exact ⟨q, rfl⟩
  have hsv : single_value st c "raw" now = readRawPoint st c now := by
    unfold single_value
    rw [if_pos ⟨rfl, by rw [hp]; rfl⟩]
  rcases hk with hk | hk
  · -- date store: the reference time is the point's first component
    have href : refTime st c = some p.1 := by
      unfold refTime; rw [hk, hp]; rfl
    cases ht : timeoutOf st c with
    | none =>
      have ho : old_data st c now = some false := by
        unfold old_data; rw [hk, ht]
      have hr : readRawPoint st c now = some (fmtPoint p) := by
        unfold readRawPoint; rw [ho, hp]; rfl
      refine ⟨by rw [hsv, hr]; rfl, ?_, ?_⟩
      · constructor
        · intro hout
          rw [hsv, hr] at hout
          exact absurd (Option.some_injective _ hout) (fmtPoint_ne_OLD_DATA p)
        · rintro ⟨T, r, hT, -, -⟩
          cases hT
      · intro _ hout
        rw [hsv, hr] at hout
        exact absurd (Option.some_injective _ hout) (fmtPoint_ne_OLD_DATA p)
    | some t =>
      by_cases hgt : now - p.1 > t
      · have ho : old_data st c now = some true := by
          unfold old_data; rw [hk, ht, hp]; simp [hgt]
        have hr : readRawPoint st c now = some OLD_DATA := by
          unfold readRawPoint; rw [ho]
        refine ⟨by rw [hsv, hr]; rfl, ?_, ?_⟩
        · exact ⟨fun _ => ⟨t, p.1, rfl, href, hgt⟩, fun _ => by rw [hsv, hr]⟩
        · intro hnone; cases hnone
      · have ho : old_data st c now = some false := by
          unfold old_data; rw [hk, ht, hp]; simp [hgt]
        have hr : readRawPoint st c now = some (fmtPoint p) := by
          unfold readRawPoint; rw [ho, hp]; rfl
        refine ⟨by rw [hsv, hr]; rfl, ?_, ?_⟩
        · constructor
          · intro hout
            rw [hsv, hr] at hout
            exact absurd (Option.some_injective _ hout) (fmtPoint_ne_OLD_DATA p)
          · rintro ⟨T, r, hT, hr', hgt'⟩
            rw [href] at hr'
            cases hT; cases hr'
            exact absurd hgt' hgt
        · intro _ hout
          rw [hsv, hr] at hout
          exact absurd (Option.some_injective _ hout) (fmtPoint_ne_OLD_DATA p)
  · -- x/y data store: the reference time is the recorded set-timestamp
    obtain ⟨ts, hts'⟩ : ∃ ts, dlookup st.timestamps c = some ts := by
      cases h : dlookup st.timestamps c with
      | none => rw [h] at hts; simp [hk] at hts
      | some q => exact ⟨q, rfl⟩
    have href : refTime st c = some ts := by
      unfold refTime; rw [hk, hts']
    cases ht : timeoutOf st c with
    | none =>
      have ho : old_data st c now = some false := by
        unfold old_data; rw [hk, ht]
      have hr : readRawPoint st c now = some (fmtPoint p) := by
        unfold readRawPoint; rw [ho, hp]; rfl
      refine ⟨by rw [hsv, hr]; rfl, ?_, ?_⟩
      · constructor
        · intro hout
          rw [hsv, hr] at hout
          exact absurd (Option.some_injective _ hout) (fmtPoint_ne_OLD_DATA p)
        · rintro ⟨T, r, hT, -, -⟩
          cases hT
      · intro _ hout
        rw [hsv, hr] at hout
        exact absurd (Option.some_injective _ hout) (fmtPoint_ne_OLD_DATA p)
    | some t =>
      by_cases hgt : now - ts > t
      · have ho : old_data st c now = some true := by
          unfold old_data; rw [hk, ht, hts']; simp [hgt]
        have hr : readRawPoint st c now = some OLD_DATA := by
          unfold readRawPoint; rw [ho]
        refine ⟨by rw [hsv, hr]; rfl, ?_, ?_⟩
        · exact ⟨fun _ => ⟨t, ts, rfl, href, hgt⟩, fun _ => by rw [hsv, hr]⟩
        · intro hnone; cases hnone
      · have ho : old_data st c now = some false := by
          unfold old_data; rw [hk, ht, hts']; simp [hgt]
        have hr : readRawPoint st c now = some (fmtPoint p) := by
          unfold readRawPoint; rw [ho, hp]; rfl
        refine ⟨by rw [hsv, hr]; rfl, ?_, ?_⟩
        · constructor
          · intro hout
            rw [hsv, hr] at hout
            exact absurd (Option.some_injective _ hout) (fmtPoint_ne_OLD_DATA p)
          · rintro ⟨T, r, hT, hr', hgt'⟩
            rw [href] at hr'
            cases hT; cases hr'
            exact absurd hgt' hgt
        · intro _ hout
          rw [hsv, hr] at hout
          exact absurd (Option.some_injective _ hout) (fmtPoint_ne_OLD_DATA p)

/-- A concrete `date` store used to witness C1: one channel `a` with
timeout 3 and point `(0, 47)`. -/
def c1store : PullStoreState :=
  { ptype := some StoreKind.date, name := "s", codenames := ["a"]
    data := [("a", (0, 47))], timeouts := [("a", some 3)], timestamps := [] }

/-- Witness for C1: at `now = 10` the channel of `c1store` is 10 seconds
old against a timeout of 3, so the read answers the stale sentinel. -/
theorem claim_C1_witness : single_value c1store "a" "raw" 10 = some OLD_DATA :=
  (claim_C1 c1store "a" 10 (Or.inl rfl) (by rfl)
      (fun h => absurd h (by decide))).2.1.mpr
    ⟨3, 0, rfl, rfl, by decide⟩

theorem initLoop_ok_count (cns : List String) (dx dy : Int) (it : Bool) :
    ∀ (pairs : List (String × Option Int)) (st st' : PullStoreState),
      initLoop cns dx dy it pairs st = .ok st' → ∀ pr ∈ pairs, cns.count pr.1 ≤ 1 := by
  intro pairs
  induction pairs with
  | nil => intro st st' _ pr hpr; simp at hpr
  | cons hd tl ih =>
    intro st st' h pr hpr
    obtain ⟨nm, t⟩ := hd
    simp only [initLoop] at h
    by_cases hc : cns.count nm > 1
    · rw [if_pos hc] at h; exact Except.noConfusion h
    · rw [if_neg hc] at h
      cases hf : BAD_CHARS.find? (fun ch => ch ∈ nm.data) with
      | some ch => rw [hf] at h; exact Except.noConfusion h
      | none =>
        rw [hf] at h
        rcases List.mem_cons.mp hpr with rfl | hmem
        · show cns.count nm ≤ 1
          omega
        · exact ih _ _ h pr hmem

theorem initLoop_ok_keys (cns : List String) (dx dy : Int) (it : Bool) :
    ∀ (pairs : List (String × Option Int)) (st st' : PullStoreState),
      (pairs.map Prod.fst).Nodup → (∀ pr ∈ pairs, pr.1 ∉ dkeys st.data) →
      initLoop cns dx dy it pairs st = .ok st' →
      dkeys st'.data = dkeys st.data ++ pairs.map Prod.fst := by
  intro pairs
  induction pairs with
  | nil =>
    intro st st' _ _ h
    simp only [initLoop] at h
    cases h
    simp
  | cons hd tl ih =>
    intro st st' hnd hfresh h
    obtain ⟨nm, t⟩ := hd
    simp only [initLoop] at h
    by_cases hc : cns.count nm > 1
    · rw [if_pos hc] at h; exact Except.noConfusion h
    · rw [if_neg hc] at h
      cases hf : BAD_CHARS.find? (fun ch => ch ∈ nm.data) with
      | some ch => rw [hf] at h; exact Except.noConfusion h
      | none =>
        rw [hf] at h
        simp only [List.map_cons, List.nodup_cons] at hnd
        have hkeys2 : dkeys (dinsert st.data nm (dx, dy)) = dkeys st.data ++ [nm] :=
          dkeys_dinsert_of_not_mem _ _ _ (hfresh (nm, t) (List.mem_cons_self _ _))
        have hfresh2 : ∀ pr ∈ tl, pr.1 ∉ dkeys (dinsert st.data nm (dx, dy)) := by
          intro pr hpr
          rw [hkeys2]
          simp only [List.mem_append, List.mem_singleton]
          push_neg
          refine ⟨hfresh pr (List.mem_cons_of_mem _ hpr), fun he => ?_⟩
          exact hnd.1 (he ▸ List.mem_map_of_mem Prod.fst hpr)
        have hres := ih _ _ hnd.2 hfresh2 h
        rw [hres]
        show dkeys (dinsert st.data nm (dx, dy)) ++ _ = _
        rw [hkeys2, List.append_assoc]
        rfl

theorem initLoop_ok_codenames (cns : List String) (dx dy : Int) (it : Bool) :
    ∀ (pairs : List (String × Option Int)) (st st' : PullStoreState),
      initLoop cns dx dy it pairs st = .ok st' → st'.codenames = st.codenames := by
  intro pairs
  induction pairs with
  | nil =>
    intro st st' h
    simp only [initLoop] at h
    cases h
    rfl
  | cons hd tl ih =>
    intro st st' h
    obtain ⟨nm, t⟩ := hd
    simp only [initLoop] at h
    by_cases hc : cns.count nm > 1
    · rw [if_pos hc] at h; exact Except.noConfusion h
    · rw [if_neg hc] at h
      cases hf : BAD_CHARS.find? (fun ch => ch ∈ nm.data) with
      | some ch => rw [hf] at h; exact Except.noConfusion h
      | none =>
        rw [hf] at h
        have h' : initLoop cns dx dy it tl
            { st with
              data := dinsert st.data nm (dx, dy)
              timeouts := if it then dinsert st.timeouts nm t else st.timeouts } = .ok st' := h
        have hres := ih _ _ h'
        exact hres

theorem commonPullInit_ok_keys (reg : List Nat) (nm : String) (cns : List String)
    (port : Nat) (dx dy : Int) (ts : Timeouts) (it : Bool) (st : PullStoreState)
    (h : commonPullInit reg nm cns port dx dy ts it = .ok st) :
    dkeys st.data = cns ∧ st.codenames = cns := by
  unfold commonPullInit at h
  by_cases hport : port ∈ reg
  · rw [if_pos hport] at h; exact Except.noConfusion h
  · rw [if_neg hport] at h
    have main : ∀ (pairs : List (String × Option Int)),
        pairs.map Prod.fst = cns →
        initLoop cns dx dy it pairs (pullBase nm cns) = .ok st →
        dkeys st.data = cns ∧ st.codenames = cns := by
      intro pairs hfst hinit
      have hcount := initLoop_ok_count cns dx dy it pairs _ _ hinit
      have hnodup : cns.Nodup := by
        rw [List.nodup_iff_count_le_one]
        intro a
        by_cases ha : a ∈ cns
        · rw [← hfst] at ha
          obtain ⟨pr, hpr, hpa⟩ := List.mem_map.mp ha
          exact hpa ▸ hcount pr hpr
        · simp [List.count_eq_zero_of_not_mem ha]
      have hkeys := initLoop_ok_keys cns dx dy it pairs _ _
        (by rw [hfst]; exact hnodup) (by intro pr hpr; simp [pullBase, dkeys]) hinit
      have hcn := initLoop_ok_codenames cns dx dy it pairs _ _ hinit
      constructor
      · rw [hkeys, hfst]; simp [pullBase, dkeys]
      · exact hcn
    cases ts with
    | scalar t =>
      have h' : initLoop cns dx dy it (cns.zip (List.replicate cns.length t))
          (pullBase nm cns) = .ok st := h
      exact main _ (List.map_fst_zip cns _ (by simp)) h'
    | list l =>
      have h' : (if l.length ≠ cns.length then
            (.error "If a list of timeouts is supplied, it must have as many items as there are in codenames" :
              Except String PullStoreState)
          else initLoop cns dx dy it (cns.zip l) (pullBase nm cns)) = .ok st := h
      by_cases hlen : l.length ≠ cns.length
      · rw [if_pos hlen] at h'; exact Except.noConfusion h'
      · rw [if_neg hlen] at h'
        push_neg at hlen
        exact main _ (List.map_fst_zip cns l (le_of_eq hlen.symm)) h'

/-- A concrete x/y store with the single channel `a`, used against C2. -/
def c2store : PullStoreState :=
  { ptype := some StoreKind.data, name := "s", codenames := ["a"]
    data := [("a", (47, 47))], timeouts := [("a", none)], timestamps := [("a", 0)] }

/-- Counterexample to C2 as stated: `DataPullSocket.set_point` with the
codename `b`, which is not in the channels list `["a"]`, adds the new
key `b` to the values mapping instead of leaving the key set alone. -/
theorem counterexample_C2 :
    dkeys (DataPullSocket.set_point c2store "b" (1, 2) none 5).data = ["a", "b"] ∧
    ["a", "b"] ≠ ["a"] :=
  ⟨rfl, by decide⟩

/-- C2 (amended).  After a successful creation the key set of the values
mapping is exactly the codenames list; `set_point` with a codename that
is already a key preserves the key set on `DataPullSocket` and
`DateDataPullSocket`; `LiveSocket.set_point` preserves the key set for
an in-list codename and raises `ValueError` (producing no new store) for
any other codename.  The unamended claim fails because the first two
`set_point`s add a key for an unknown codename (`counterexample_C2`). -/
theorem claim_C2 :
    (∀ (reg : List Nat) (nm : String) (cns : List String) (port : Nat) (dx dy : Int)
        (ts : Timeouts) (it : Bool) (st : PullStoreState),
        commonPullInit reg nm cns port dx dy ts it = .ok st →
        dkeys st.data = cns ∧ st.codenames = cns)
    ∧ (∀ (st : PullStoreState) (c : String) (p : Int × Int) (tso : Option Int) (now : Int),
        c ∈ dkeys st.data →
        dkeys (DataPullSocket.set_point st c p tso now).data = dkeys st.data)
    ∧ (∀ (st : PullStoreState) (c : String) (p : Int × Int),
        c ∈ dkeys st.data →
        dkeys (DateDataPullSocket.set_point st c p).data = dkeys st.data)
    ∧ (∀ (st : PullStoreState) (c : String) (p : Int × Int),
        c ∈ st.codenames →
        LiveSocket.set_point st c p = .ok { st with data := dinsert st.data c p } ∧
        (c ∈ dkeys st.data → dkeys (dinsert st.data c p) = dkeys st.data))
    ∧ (∀ (st : PullStoreState) (c : String) (p : Int × Int),
        c ∉ st.codenames →
        LiveSocket.set_point st c p = .error ("Codename " ++ c ++ " not recognized")) := by
  refine ⟨?_, ?_, ?_, ?_, ?_⟩
  · intro reg nm cns port dx dy ts it st h
    exact commonPullInit_ok_keys reg nm cns port dx dy ts it st h
  · intro st c p tso now hc
    exact dkeys_dinsert_of_mem st.data c p hc
  · intro st c p hc
    exact dkeys_dinsert_of_mem st.data c p hc
  · intro st c p hc
    refine ⟨?_, fun hm => dkeys_dinsert_of_mem st.data c p hm⟩
    unfold LiveSocket.set_point
    rw [if_pos hc]
  · intro st c p hc
    unfold LiveSocket.set_point
    rw [if_neg hc]

/-- Witness for the amended C2: an in-list `set_point` on `c2store`
leaves the key set `["a"]` unchanged. -/
theorem claim_C2_witness :
    dkeys (DataPullSocket.set_point c2store "a" (1, 2) none 5).data = dkeys c2store.data :=
  claim_C2.2.1 c2store "a" (1, 2) none 5 (by decide)

/-- C4.  Construction does reject a duplicate codename, every character
of `BAD_CHARS` (here `&`), a timeouts list of the wrong arity and an
already-registered port — but `BAD_CHARS` contains no whitespace, so a
codename with a SPACE (forbidden by the constructor docstrings and the
spec) is accepted.  The first conjunct evaluates the constructor at the
failing input `codenames = ["a b"]`. -/
theorem claim_C4 :
    (commonPullInit [] "n" ["a b"] 9000 47 47 (.scalar none) true).isOk = true ∧
    (commonPullInit [] "n" ["a&b"] 9000 47 47 (.scalar none) true).isOk = false ∧
    (commonPullInit [] "n" ["a", "a"] 9000 47 47 (.scalar none) true).isOk = false ∧
    (commonPullInit [] "n" ["a", "b"] 9000 47 47 (.list [none]) true).isOk = false ∧
    (commonPullInit [9000] "n" ["a"] 9000 47 47 (.scalar none) true).isOk = false ∧
    (commonPullInit [] "n" ["a"] 9000 47 47 (.scalar none) true).isOk = true := by
  refine ⟨rfl, rfl, rfl, rfl, ?_, rfl⟩
  rfl

/-! ### The push sink properties `last` and `updated` (C10)

`DataPushSocket.last`/`.updated` hand out `dict.copy()` — a fresh dict
object — so mutations performed by the caller on the returned dict can
never reach the sink's stored state.  To make the aliasing claim
meaningful the dicts live in an explicit heap of dict objects addressed
by allocation index; `.copy()` is allocation of a fresh address holding
the same contents. -/

/-- A heap of Python dict objects; an address is an index. -/
structure Heap where
  mem : List PyDict

/-- Dereference an address. -/
def Heap.get (h : Heap) (a : Nat) : Option PyDict :=
  h.mem[a]?

/-- Allocate a fresh dict object (`dict.copy()` allocates). -/
def Heap.alloc (h : Heap) (d : PyDict) : Heap × Nat :=
  ({ mem := h.mem ++ [d] }, h.mem.length)

/-- Overwrite the object at an (existing) address. -/
def Heap.write (h : Heap) (a : Nat) (d : PyDict) : Heap :=
  { mem := h.mem.set a d }

/-- An in-place mutation of the dict object at `a` (item assignment,
deletion, `clear`, `update`, ... — any function of the contents). -/
def mutateAt (h : Heap) (a : Nat) (f : PyDict → PyDict) : Heap :=
  match h.get a with
  | none => h
  | some d => h.write a (f d)

/-- A sequence of in-place mutations of the dict object at `a`. -/
def mutateSeq (h : Heap) (a : Nat) : List (PyDict → PyDict) → Heap
  | [] => h
  | f :: fs => mutateSeq (mutateAt h a f) a fs

/-- The heap-reference part of one `DataPushSocket` entry of `DATA`:
the `'last'`/`'updated'` dict addresses and their timestamps. -/
structure DataPushRefs where
  last : Option Nat
  last_time : Option Int
  updated : Nat
  updated_time : Option Int

namespace DataPushSocket

/-- The `last` property: `(last_time, last.copy())`, or
`(last_time, None)` with no copying when nothing was ever received (a
dangling address, impossible on heaps built by the model, also copies
nothing). -/
def lastProp (h : Heap) (s : DataPushRefs) : Heap × (Option Int × Option Nat) :=
  match s.last.bind h.get with
  | none => (h, (s.last_time, none))
  | some d =>
    let al := h.alloc d
    (al.1, (s.last_time, some al.2))

/-- The `updated` property: `(updated_time, updated.copy())`. -/
def updatedProp (h : Heap) (s : DataPushRefs) : Heap × (Option Int × Option Nat) :=
  match h.get s.updated with
  | none => (h, (s.updated_time, none))
  | some d =>
    let al := h.alloc d
    (al.1, (s.updated_time, some al.2))

end DataPushSocket

theorem Heap.get_alloc_lt (h : Heap) (d : PyDict) (a : Nat) (ha : a < h.mem.length) :
    Heap.get { mem := h.mem ++ [d] } a = h.get a := by
  simp [Heap.get, List.getElem?_append, ha]

theorem mutateAt_get_ne (h : Heap) (a : Nat) (f : PyDict → PyDict) (b : Nat)
    (hb : b ≠ a) : (mutateAt h a f).get b = h.get b := by
  unfold mutateAt
  cases h.get a with
  | none => rfl
  | some d =>
    simp [Heap.get, Heap.write, List.getElem?_set_ne (Ne.symm hb)]

theorem mutateSeq_get_ne (fs : List (PyDict → PyDict)) :
    ∀ (h : Heap) (a b : Nat), b ≠ a → (mutateSeq h a fs).get b = h.get b := by
  induction fs with
  | nil => intro h a b _; rfl
  | cons f fs ih =>
    intro h a b hb
    show (mutateSeq (mutateAt h a f) a fs).get b = h.get b
    rw [ih _ a b hb, mutateAt_get_ne h a f b hb]

/-- C10.  Reading `last`/`updated` returns the stored timestamp together
with a freshly allocated copy of the stored dict; any sequence of
mutations the caller performs on that copy leaves the dict objects the
sink references (both `last` and `updated`) unchanged, and when no data
was ever received `last` answers `(last_time, None)` without copying. -/
theorem claim_C10 (h : Heap) (s : DataPushRefs)
    (hlv : ∀ a, s.last = some a → a < h.mem.length)
    (hup : s.updated < h.mem.length) :
    (∀ a d, s.last = some a → h.get a = some d →
      DataPushSocket.lastProp h s =
        ({ mem := h.mem ++ [d] }, (s.last_time, some h.mem.length)) ∧
      ∀ fs, (mutateSeq { mem := h.mem ++ [d] } h.mem.length fs).get a = h.get a ∧
        (mutateSeq { mem := h.mem ++ [d] } h.mem.length fs).get s.updated = h.get s.updated)
    ∧ (s.last = none → DataPushSocket.lastProp h s = (h, (s.last_time, none)))
    ∧ (∀ d, h.get s.updated = some d →
      DataPushSocket.updatedProp h s =
        ({ mem := h.mem ++ [d] }, (s.updated_time, some h.mem.length)) ∧
      ∀ fs, (mutateSeq { mem := h.mem ++ [d] } h.mem.length fs).get s.updated = h.get s.updated ∧
        ∀ a, s.last = some a → (mutateSeq { mem := h.mem ++ [d] } h.mem.length fs).get a = h.get a) := by
  refine ⟨?_, ?_, ?_⟩
  · intro a d hla hget
    constructor
    · unfold DataPushSocket.lastProp
      rw [show s.last.bind (Heap.get h) = some d from by rw [hla, Option.some_bind, hget]]
      rfl
    · intro fs
      have ha := hlv a hla
      constructor
      · rw [mutateSeq_get_ne fs _ _ a (by omega), Heap.get_alloc_lt h d a ha]
      · rw [mutateSeq_get_ne fs _ _ s.updated (by omega), Heap.get_alloc_lt h d s.updated hup]
  · intro hla
    unfold DataPushSocket.lastProp
    rw [show s.last.bind (Heap.get h) = none from by rw [hla, Option.none_bind]]
  · intro d hget
    constructor
    · unfold DataPushSocket.updatedProp
      rw [hget]
      rfl
    · intro fs
      constructor
      · rw [mutateSeq_get_ne fs _ _ s.updated (by omega), Heap.get_alloc_lt h d s.updated hup]
      · intro a hla
        have ha := hlv a hla
        rw [mutateSeq_get_ne fs _ _ a (by omega), Heap.get_alloc_lt h d a ha]

/-- A concrete two-object heap for the C10 witness: address 0 holds the
`last` dict, address 1 the `updated` dict. -/
def c10heap : Heap :=
  { mem := [[("a", PyVal.vint 1)], [("a", PyVal.vint 1)]] }

/-- The concrete sink references for the C10 witness. -/
def c10refs : DataPushRefs :=
  { last := some 0, last_time := some 5, updated := 1, updated_time := some 6 }

/-- Witness for C10: reading `last` on the concrete sink allocates the
copy at the fresh address 2 and returns the stored timestamp. -/
theorem claim_C10_witness :
    DataPushSocket.lastProp c10heap c10refs =
      ({ mem := [[("a", PyVal.vint 1)], [("a", PyVal.vint 1)], [("a", PyVal.vint 1)]] },
        (some 5, some 2)) :=
  ((claim_C10 c10heap c10refs
      (by intro a ha; injection ha with h1; subst h1; decide)
      (by decide)).1 0 [("a", PyVal.vint 1)] rfl rfl).1

/-! ### The push service (`PushUDPHandler`)

`json.loads` and `json.dumps` are Python-stdlib boundaries and are taken
as parameters (`jloads`, `jdumps`); the callback is a field of the sink
state, modelled as a pure function that either returns a value or raises
(`Except`).  The reply computation and the state mutation of `_set_data`
are split into `pushReply` and `postState`; the source performs the
state writes first and then computes the reply, and the callback cannot
touch the sink fields, so the pairing is the same. -/

/-- `Except`-valued `mapM`, first failure wins (Python raises at the
first bad item). -/
def exMapM {α β : Type} (f : α → Except String β) : List α → Except String (List β)
  | [] => .ok []
  | a :: as =>
    match f a with
    | .error e => .error e
    | .ok b =>
      match exMapM f as with
      | .error e => .error e
      | .ok bs => .ok (b :: bs)

/-- The push sink's `action` field. -/
inductive PushAction where
  | store_last | enqueue | callback_async | callback_direct
  deriving DecidableEq

/-- The push sink's `return_format` field. -/
inductive RetFormat where
  | json | raw | string
  deriving DecidableEq

/-- One `DataPushSocket` entry of `DATA` (contents, not heap addresses):
`'name'`, `'action'`, `'last'`/`'last_time'`, `'updated'`/`'updated_time'`,
`'queue'`, `'callback'`, `'return_format'`. -/
structure PushState where
  name : String
  action : PushAction
  last : Option PyDict
  last_time : Option Int
  updated : PyDict
  updated_time : Option Int
  queue : List PyDict
  callback : PyDict → Except String PyVal
  return_format : RetFormat

namespace PushUDPHandler

/-- `len(data_converted) == 1` collapses the list to its element. -/
def collapse : List PyVal → PyVal
  | [v] => v
  | l => .vlist l

/-- Conversion of one `raw_wn` value field under a type tag: look the
tag up in `TYPE_FROM_STRING`, split the field on commas, convert every
piece. -/
def convertValues (ty vs : String) : Option (List PyVal) :=
  (TYPE_FROM_STRING ty).bind fun f => optMapM f (pySplit vs ',')

/-- Conversion of the data field once the type tag has resolved to a
conversion function: split on commas, convert every piece, collapse a
singleton. -/
def convertWith (codename dtype : String) (f : String → Option PyVal) (dstring : String) :
    Except String (String × PyVal) :=
  match optMapM f (pySplit dstring ',') with
  | none => .error ("Unable to convert values to " ++ dtype)
  | some vals => .ok (codename, collapse vals)

/-- Conversion of one already-split `codename/type/data` triple: resolve
the type tag in `TYPE_FROM_STRING` (a `KeyError` re-raised as
`ValueError` for an unknown tag), then convert. -/
def convertTagged (codename dtype dstring : String) : Except String (String × PyVal) :=
  match TYPE_FROM_STRING dtype with
  | none =>
    .error ("The data type " ++ dtype ++ " is unknown. Only int, float, str and bool are allowed")
  | some f => convertWith codename dtype f dstring

/-- One `codename:type:data` part of a `raw_wn` payload, as parsed by
the body of the loop in `_raw_with_names`. -/
def convertPart (part : String) : Except String (String × PyVal) :=
  match pySplit part ':' with
  | [codename, dtype, dstring] => convertTagged codename dtype dstring
  | _ =>
    .error ("The data part " ++ part ++ " did not match the expected format of 3 parts divided by colons")

/-- The accumulation loop of `_raw_with_names`: `data_out[codename] =
data_converted` for each part, stopping at the first `ValueError`. -/
def rawLoop : List String → PyDict → Except String PyDict
  | [], acc => .ok acc
  | p :: ps, acc =>
    match convertPart p with
    | .error e => .error e
    | .ok kv => rawLoop ps (dinsert acc kv.1 kv.2)

/-- `PushUDPHandler._raw_with_names`, the parsing part (the `_set_data`
call is performed by the caller in this model). -/
def raw_with_names (payload : String) : Except String PyDict :=
  rawLoop (pySplit payload ';') []

/-- `PushUDPHandler._json_with_names`, the parsing part, over the
`json.loads` boundary `jloads`. -/
def json_with_names (jloads : String → Option PyVal) (data : String) :
    Except String PyDict :=
  match jloads data with
  | none => .error ("The string " ++ data ++ " could not be decoded as JSON")
  | some (.vdict d) => .ok d
  | some _ => .error "The object returned after decoding the JSON string is not a dict"

/-- Is a Python type acceptable to the raw formatter
(`element_type in [int, float, bool, str]`)? -/
def rawSerializable : PyType → Bool
  | .tint | .tfloat | .tbool | .tstr => true
  | _ => false

/-- One `key, value` item of `_format_return_raw_dict`.  An empty list
sets `element_type` to the empty string (modelled by taking the
`.vlist []` branch), which then fails the `element_type in [int, float,
bool, str]` membership test and raises `TypeError`. -/
def rawDictItem (key : String) (value : PyVal) : Except String String :=
  match value with
  | .vlist (e :: es) =>
    if ((e :: es).map pyTypeOf).all (fun t => t == pyTypeOf e) then
      if rawSerializable (pyTypeOf e) then
        .ok (key ++ ":" ++ typeName (pyTypeOf e) ++ ":" ++
          joinSep "," ((e :: es).map pyStrScalar))
      else
        .error "With return format raw, the item type can only be one of int, float, bool and str"
    else .error "With return format raw, value in list must have same type"
  | .vlist [] =>
    .error "With return format raw, the item type can only be one of int, float, bool and str"
  | v =>
    if rawSerializable (pyTypeOf v) then
      .ok (key ++ ":" ++ typeName (pyTypeOf v) ++ ":" ++ pyStrScalar v)
    else
      .error "With return format raw, the item type can only be one of int, float, bool and str"

/-- `PushUDPHandler._format_return_raw_dict`. -/
def format_return_raw_dict (d : PyDict) : Except String String :=
  (exMapM (fun kv => rawDictItem kv.1 kv.2) d).map
    (fun items => PUSH_RET ++ "#" ++ joinSep ";" items)

/-- `PushUDPHandler._format_return_raw_list`: every element must itself
be a list; all inner values must share one raw-serializable type; an
empty overall type list hits `types[0]` and raises `IndexError`. -/
def format_return_raw_list (l : List PyVal) : Except String String :=
  match exMapM (fun item =>
      match item with
      | .vlist inner =>
        .ok ((inner.map pyTypeOf, joinSep "," (inner.map pyStrScalar)))
      | _ => .error "With return format raw on a list, the elements themselves must be lists") l with
  | .error e => .error e
  | .ok pairs =>
    match (pairs.map Prod.fst).flatten with
    | [] => .error "list index out of range"
    | t0 :: trest =>
      if (t0 :: trest).all (fun t => t == t0) then
        if rawSerializable t0 then
          .ok (PUSH_RET ++ "#" ++ typeName t0 ++ ":" ++ joinSep "&" (pairs.map Prod.snd))
        else
          .error "With return format raw, the item type can only be one of int, float, bool and str"
      else
        .error "With return format raw on a list of lists, all values in list must have same type"

/-- `PushUDPHandler._format_return_raw`: `None`, dict and list shapes;
every exception from the helpers is caught and reported with the
`EXCEP` prefix. -/
def format_return_raw (v : PyVal) : String :=
  match v with
  | .vnone => PUSH_RET ++ "#None"
  | .vdict d =>
    match format_return_raw_dict d with
    | .ok s => s
    | .error e => PUSH_EXCEP ++ "#Raw conversion failed with message:" ++ e
  | .vlist l =>
    match format_return_raw_list l with
    | .ok s => s
    | .error e => PUSH_EXCEP ++ "#Raw conversion failed with message:" ++ e
  | _ =>
    PUSH_EXCEP ++ "#Raw conversion failed with message:" ++
      "Return value must be a dict or list with return format raw"

/-- `PushUDPHandler._format_return_json` over the `json.dumps` boundary. -/
def format_return_json (jdumps : PyVal → Option String) (v : PyVal) : String :=
  match jdumps v with
  | some s => PUSH_RET ++ "#" ++ s
  | none => PUSH_EXCEP ++ "#not JSON serializable"

/-- `PushUDPHandler._format_return_string` (a boundary `str()`). -/
def format_return_string (v : PyVal) : String :=
  PUSH_RET ++ "#" ++ pyStrScalar v

/-- Boundary rendering of the interpreted dict echoed inside an `ACK`
reply (the source interpolates the Python dict repr; no claim inspects
the text after the prefix). -/
def pyReprDict (d : PyDict) : String :=
  "[" ++ joinSep "; " (d.map (fun kv => kv.1 ++ " -> " ++ pyStrScalar kv.2)) ++ "]"

/-- The state mutation of `_set_data`: refresh `last`/`updated`
unconditionally, enqueue for the `enqueue`/`callback_async` actions. -/
def postState (now : Int) (st : PushState) (d : PyDict) : PushState :=
  let st1 : PushState :=
    { st with
      last := some d, last_time := some now,
      updated := d.foldl (fun mm kv => dinsert mm kv.1 kv.2) st.updated,
      updated_time := some now }
  if st.action = .enqueue ∨ st.action = .callback_async then
    { st1 with queue := st1.queue ++ [d] }
  else st1

/-- The reply of `_set_data`: a synchronous callback (whose exceptions
become `EXCEP` replies) formatted per `return_format` for
`callback_direct`, an `ACK` echo otherwise. -/
def pushReply (jdumps : PyVal → Option String) (st : PushState) (d : PyDict) : String :=
  match st.action with
  | .callback_direct =>
    match st.callback d with
    | .error em => PUSH_EXCEP ++ "#" ++ em
    | .ok rv =>
      match st.return_format with
      | .json => format_return_json jdumps rv
      | .raw => format_return_raw rv
      | .string => format_return_string rv
  | _ => PUSH_ACK ++ "#" ++ pyReprDict d

/-- `PushUDPHandler._set_data`. -/
def set_data (jdumps : PyVal → Option String) (now : Int) (st : PushState)
    (d : PyDict) : String × PushState :=
  (pushReply jdumps st d, postState now st d)

/-- Dispatch on the already-split request (the source checks
`request.count('#') != 1` and then splits; a two-element split is the
same condition). -/
def handleSplit (jloads : String → Option PyVal) (jdumps : PyVal → Option String)
    (now : Int) (st : PushState) : List String → String × PushState
  | [command, data] =>
    if command = "json_wn" then
      match json_with_names jloads data with
      | .error e => (PUSH_ERROR ++ "#" ++ e, st)
      | .ok d => set_data jdumps now st d
    else if command = "raw_wn" then
      match raw_with_names data with
      | .error e => (PUSH_ERROR ++ "#" ++ e, st)
      | .ok d => set_data jdumps now st d
    else (PUSH_ERROR ++ "#" ++ UNKNOWN_COMMAND, st)
  | _ => (PUSH_ERROR ++ "#" ++ UNKNOWN_COMMAND, st)

/-- `PushUDPHandler.handle`: the `name` request, the one-`#` check, the
`json_wn`/`raw_wn` dispatch, and the `except ValueError` that turns a
helper failure into an `ERROR` reply (totality of this function is the
no-crash guarantee). -/
def handle (jloads : String → Option PyVal) (jdumps : PyVal → Option String)
    (now : Int) (st : PushState) (request : String) : String × PushState :=
  if request = "name" then (PUSH_RET ++ "#" ++ st.name, st)
  else handleSplit jloads jdumps now st (pySplit request '#')

end PushUDPHandler

/-- The codename of a `raw_wn` part (the first `:`-field). -/
def partName (p : String) : String :=
  match pySplit p ':' with
  | nm :: _ => nm
  | [] => ""

theorem dlookup_dinsert_ne {α : Type} (m : List (String × α)) (k' : String) (v : α)
    (k : String) (h : k' ≠ k) : dlookup (dinsert m k' v) k = dlookup m k := by
  induction m with
  | nil => simp [dinsert, dlookup, h]
  | cons hd tl ih =>
    obtain ⟨k2, v2⟩ := hd
    by_cases h2 : k2 = k'
    · subst h2
      simp [dinsert, dlookup, h]
    · simp [dinsert, h2, dlookup, ih]

theorem postState_last (now : Int) (st : PushState) (d : PyDict) :
    (PushUDPHandler.postState now st d).last = some d := by
  unfold PushUDPHandler.postState
  split <;> rfl

theorem postState_frame (now : Int) (st : PushState) (d : PyDict) :
    (PushUDPHandler.postState now st d).name = st.name ∧
    (PushUDPHandler.postState now st d).action = st.action := by
  unfold PushUDPHandler.postState
  split <;> exact ⟨rfl, rfl⟩

theorem convertPart_inv (p : String) (kv : String × PyVal)
    (h : PushUDPHandler.convertPart p = .ok kv) :
    ∃ nm ty vs f cvs,
      pySplit p ':' = [nm, ty, vs] ∧
      TYPE_FROM_STRING ty = some f ∧
      optMapM f (pySplit vs ',') = some cvs ∧
      kv = (nm, PushUDPHandler.collapse cvs) := by
  unfold PushUDPHandler.convertPart at h
  rcases hsp : pySplit p ':' with _ | ⟨nm, _ | ⟨ty, _ | ⟨vs, _ | ⟨w4, t4⟩⟩⟩⟩ <;> rw [hsp] at h
  · exact Except.noConfusion h
  · exact Except.noConfusion h
  · exact Except.noConfusion h
  · have h2 : PushUDPHandler.convertTagged nm ty vs = .ok kv := h
    unfold PushUDPHandler.convertTagged at h2
    cases hTF : TYPE_FROM_STRING ty with
    | none => rw [hTF] at h2; exact Except.noConfusion h2
    | some f =>
      rw [hTF] at h2
      have h3 : PushUDPHandler.convertWith nm ty f vs = .ok kv := h2
      unfold PushUDPHandler.convertWith at h3
      cases hmapM : optMapM f (pySplit vs ',') with
      | none => rw [hmapM] at h3; exact Except.noConfusion h3
      | some cvs =>
        rw [hmapM] at h3
        have h4 : Except.ok (ε := String) (nm, PushUDPHandler.collapse cvs) = .ok kv := h3
        injection h4 with h5
        exact ⟨nm, ty, vs, f, cvs, rfl, hTF, hmapM, h5.symm⟩
  · exact Except.noConfusion h

theorem convertPart_name (p : String) (kv : String × PyVal)
    (h : PushUDPHandler.convertPart p = .ok kv) : kv.1 = partName p := by
  obtain ⟨nm, ty, vs, f, cvs, hsp, -, -, hkv⟩ := convertPart_inv p kv h
  rw [hkv]
  unfold partName
  rw [hsp]

theorem rawLoop_parts_ok : ∀ (ps : List String) (acc m : PyDict),
    PushUDPHandler.rawLoop ps acc = .ok m →
    ∀ p ∈ ps, ∃ kv, PushUDPHandler.convertPart p = .ok kv := by
  intro ps
  induction ps with
  | nil => intro acc m _ p hp; simp at hp
  | cons q qs ih =>
    intro acc m h p hp
    simp only [PushUDPHandler.rawLoop] at h
    cases hq : PushUDPHandler.convertPart q with
    | error e => rw [hq] at h; exact Except.noConfusion h
    | ok kv =>
      rw [hq] at h
      have h' : PushUDPHandler.rawLoop qs (dinsert acc kv.1 kv.2) = .ok m := h
      rcases List.mem_cons.mp hp with rfl | hmem
      · exact ⟨kv, hq⟩
      · exact ih _ _ h' p hmem

theorem rawLoop_frozen : ∀ (ps : List String) (acc m : PyDict) (k : String),
    PushUDPHandler.rawLoop ps acc = .ok m →
    (∀ p ∈ ps, partName p ≠ k) →
    dlookup m k = dlookup acc k := by
  intro ps
  induction ps with
  | nil =>
    intro acc m k h _
    simp only [PushUDPHandler.rawLoop] at h
    injection h with h1
    rw [h1]
  | cons q qs ih =>
    intro acc m k h hne
    simp only [PushUDPHandler.rawLoop] at h
    cases hq : PushUDPHandler.convertPart q with
    | error e => rw [hq] at h; exact Except.noConfusion h
    | ok kv =>
      rw [hq] at h
      have h' : PushUDPHandler.rawLoop qs (dinsert acc kv.1 kv.2) = .ok m := h
      have hk : kv.1 ≠ k := by
        rw [convertPart_name q kv hq]
        exact hne q (List.mem_cons_self _ _)
      rw [ih _ _ _ h' (fun p hp => hne p (List.mem_cons_of_mem _ hp))]
      exact dlookup_dinsert_ne acc kv.1 kv.2 k hk

theorem rawLoop_lookup : ∀ (ps : List String) (acc m : PyDict),
    PushUDPHandler.rawLoop ps acc = .ok m →
    (ps.map partName).Nodup →
    ∀ p ∈ ps, ∀ (k : String) (v : PyVal),
      PushUDPHandler.convertPart p = .ok (k, v) → dlookup m k = some v := by
  intro ps
  induction ps with
  | nil => intro acc m _ _ p hp; simp at hp
  | cons q qs ih =>
    intro acc m h hnd p hp k v hcv
    simp only [List.map_cons, List.nodup_cons] at hnd
    simp only [PushUDPHandler.rawLoop] at h
    cases hq : PushUDPHandler.convertPart q with
    | error e => rw [hq] at h; exact Except.noConfusion h
    | ok kv =>
      rw [hq] at h
      have h' : PushUDPHandler.rawLoop qs (dinsert acc kv.1 kv.2) = .ok m := h
      rcases List.mem_cons.mp hp with rfl | hmem
      · rw [hq] at hcv
        injection hcv with h2
        subst h2
        have hk : k = partName p := convertPart_name p (k, v) hq
        have hfr : ∀ p' ∈ qs, partName p' ≠ k := by
          intro p' hp' he
          have hmem : partName p' ∈ List.map partName qs :=
            List.mem_map_of_mem partName hp'
          rw [he.trans hk] at hmem
          exact hnd.1 hmem
        rw [rawLoop_frozen qs _ m k h' hfr]
        exact dlookup_dinsert_self acc k v
      · exact ih _ _ h' hnd.2 p hmem k v hcv

/-- C3.  A malformed push payload — a `raw_wn` payload whose parsing
raises (wrong field count, unknown type tag, conversion failure
including a bool literal other than `True`/`False`), a `json_wn` payload
that is not JSON or whose JSON is not a dict, or a request whose `#`
count is not one — is answered with an `ERROR`-prefixed datagram and the
sink state is returned unchanged; `handle` is a total function, which is
the no-crash/no-termination guarantee. -/
theorem claim_C3 (jloads : String → Option PyVal) (jdumps : PyVal → Option String)
    (now : Int) (st : PushState) (request payload : String) (v : PyVal) :
    (pySplit request '#' = ["raw_wn", payload] →
      ∀ e, PushUDPHandler.raw_with_names payload = .error e →
      PushUDPHandler.handle jloads jdumps now st request = (PUSH_ERROR ++ "#" ++ e, st))
    ∧ (pySplit request '#' = ["json_wn", payload] → jloads payload = none →
      PushUDPHandler.handle jloads jdumps now st request =
        (PUSH_ERROR ++ "#" ++ ("The string " ++ payload ++ " could not be decoded as JSON"), st))
    ∧ (pySplit request '#' = ["json_wn", payload] → jloads payload = some v →
      (∀ d, v ≠ .vdict d) →
      PushUDPHandler.handle jloads jdumps now st request =
        (PUSH_ERROR ++ "#" ++ "The object returned after decoding the JSON string is not a dict", st))
    ∧ (request ≠ "name" → (pySplit request '#').length ≠ 2 →
      PushUDPHandler.handle jloads jdumps now st request =
        (PUSH_ERROR ++ "#" ++ UNKNOWN_COMMAND, st)) := by
  refine ⟨?_, ?_, ?_, ?_⟩
  · intro hsp e he
    have hname : request ≠ "name" := by
      intro heq; subst heq
      rw [show pySplit "name" '#' = ["name"] from rfl] at hsp
      injection hsp with h1 _
      exact absurd h1 (by decide)
    unfold PushUDPHandler.handle
    rw [if_neg hname, hsp]
    simp [PushUDPHandler.handleSplit, he]
  · intro hsp hjl
    have hname : request ≠ "name" := by
      intro heq; subst heq
      rw [show pySplit "name" '#' = ["name"] from rfl] at hsp
      injection hsp with h1 _
      exact absurd h1 (by decide)
    unfold PushUDPHandler.handle
    rw [if_neg hname, hsp]
    have hjw : PushUDPHandler.json_with_names jloads payload =
        .error ("The string " ++ payload ++ " could not be decoded as JSON") := by
      unfold PushUDPHandler.json_with_names
      rw [hjl]
    simp [PushUDPHandler.handleSplit, hjw]
  · intro hsp hjl hnd
    have hname : request ≠ "name" := by
      intro heq; subst heq
      rw [show pySplit "name" '#' = ["name"] from rfl] at hsp
      injection hsp with h1 _
      exact absurd h1 (by decide)
    unfold PushUDPHandler.handle
    rw [if_neg hname, hsp]
    simp only [PushUDPHandler.handleSplit]
    have hjw : PushUDPHandler.json_with_names jloads payload =
        .error "The object returned after decoding the JSON string is not a dict" := by
      unfold PushUDPHandler.json_with_names
      rw [hjl]
      cases v with
      | vdict d => exact absurd rfl (hnd d)
      | vint n => rfl
      | vfloat q => rfl
      | vbool b => rfl
      | vstr s => rfl
      | vnone => rfl
      | vlist l => rfl
    simp [PushUDPHandler.handleSplit, hjw]
  · intro hname hlen
    unfold PushUDPHandler.handle
    rw [if_neg hname]
    rcases hsp : pySplit request '#' with _ | ⟨a, _ | ⟨b, _ | ⟨c2, t3⟩⟩⟩
    · simp only [PushUDPHandler.handleSplit]
    · simp only [PushUDPHandler.handleSplit]
    · rw [hsp] at hlen
      simp at hlen
    · simp only [PushUDPHandler.handleSplit]

/-- A concrete push sink (action `store_last`) for the C3 witness. -/
def c3sink : PushState :=
  { name := "p", action := .store_last, last := none, last_time := none
    updated := [], updated_time := none, queue := []
    callback := fun _ => .ok .vnone, return_format := .json }

/-- Witness for C3: the bool conversion failure `raw_wn#a:bool:yes`
answers `ERROR#...` and leaves the sink untouched. -/
theorem claim_C3_witness :
    PushUDPHandler.handle (fun _ => none) (fun _ => none) 0 c3sink "raw_wn#a:bool:yes" =
      (PUSH_ERROR ++ "#" ++ "Unable to convert values to bool", c3sink) :=
  (claim_C3 (fun _ => none) (fun _ => none) 0 c3sink "raw_wn#a:bool:yes" "a:bool:yes"
      PyVal.vnone).1 rfl "Unable to convert values to bool" rfl

/-- C7.  With return format `raw`, a dict whose value is the empty list
is answered with an `EXCEP` reply, not the `RET#name::` rendering the
spec describes: the source sets `element_type = ''` for an empty list
(intending, per its own comment, to render `name::`), and the subsequent
`element_type not in [int, float, bool, str]` check then raises
`TypeError`, which the wrapper reports as `EXCEP`.  A one-key dict with
a scalar value shows the normal `RET#name:type:value` path. -/
theorem claim_C7 :
    PushUDPHandler.format_return_raw (.vdict [("a", .vlist [])]) =
      PUSH_EXCEP ++ "#Raw conversion failed with message:" ++
        "With return format raw, the item type can only be one of int, float, bool and str" ∧
    PushUDPHandler.format_return_raw (.vdict [("answer", .vint 42)]) =
      "RET#answer:int:42" ∧
    PushUDPHandler.format_return_raw (.vdict [("values", .vlist [.vint 42, .vint 47])]) =
      "RET#values:int:42,47" :=
  ⟨rfl, rfl, rfl⟩

/-- C8.  A well-formed `raw_wn` write stores exactly the parsed mapping
in the sink's `last`; each payload part contributes its codename bound
to the single converted value when its value field is one comma-free
item, and to the list of converted values when there are several (the
binding is the mapping's value at that codename whenever the part names
are distinct). -/
theorem claim_C8 (jloads : String → Option PyVal) (jdumps : PyVal → Option String)
    (now : Int) (st : PushState) (request payload : String) (m : PyDict)
    (hsp : pySplit request '#' = ["raw_wn", payload])
    (hok : PushUDPHandler.raw_with_names payload = .ok m) :
    (PushUDPHandler.handle jloads jdumps now st request).2.last = some m ∧
    ∀ p ∈ pySplit payload ';', ∃ nm ty vs cvs,
      pySplit p ':' = [nm, ty, vs] ∧
      PushUDPHandler.convertValues ty vs = some cvs ∧
      cvs.length = (pySplit vs ',').length ∧
      ((pySplit vs ',').length = 1 → ∃ u, cvs = [u] ∧ PushUDPHandler.collapse cvs = u) ∧
      (2 ≤ (pySplit vs ',').length → PushUDPHandler.collapse cvs = .vlist cvs) ∧
      (((pySplit payload ';').map partName).Nodup →
        dlookup m nm = some (PushUDPHandler.collapse cvs)) := by
  constructor
  · have hname : request ≠ "name" := by
      intro heq; subst heq
      rw [show pySplit "name" '#' = ["name"] from rfl] at hsp
      injection hsp with h1 _
      exact absurd h1 (by decide)
    unfold PushUDPHandler.handle
    rw [if_neg hname, hsp]
    simp [PushUDPHandler.handleSplit, hok, PushUDPHandler.set_data, postState_last]
  · intro p hp
    have hok' : PushUDPHandler.rawLoop (pySplit payload ';') [] = .ok m := hok
    obtain ⟨kv, hkv⟩ := rawLoop_parts_ok _ _ _ hok' p hp
    obtain ⟨nm, ty, vs, f, cvs, hspp, hTF, hmapM, hkveq⟩ := convertPart_inv p kv hkv
    have hcv : PushUDPHandler.convertValues ty vs = some cvs := by
      unfold PushUDPHandler.convertValues
      rw [hTF]
      exact hmapM
    have hlen := optMapM_length f (pySplit vs ',') cvs hmapM
    refine ⟨nm, ty, vs, cvs, hspp, hcv, hlen, ?_, ?_, ?_⟩
    · intro h1
      rw [h1] at hlen
      match cvs, hlen with
      | [u], _ => exact ⟨u, rfl, rfl⟩
    · intro h2
      rw [← hlen] at h2
      match cvs, h2 with
      | u :: w :: t, _ => rfl
    · intro hnodup
      rw [hkveq] at hkv
      exact rawLoop_lookup _ _ _ hok' hnodup p hp nm (PushUDPHandler.collapse cvs) hkv

/-- A concrete push sink for the C8 witness. -/
def c8sink : PushState :=
  { name := "p8", action := .enqueue, last := none, last_time := none
    updated := [], updated_time := none, queue := []
    callback := fun _ => .ok .vnone, return_format := .json }

/-- Witness for C8: writing `raw_wn#a:int:1;b:str:x,y` stores
`a -> 1` (scalar, one comma-free value) and `b -> [x, y]` (array, two
values) in `last`. -/
theorem claim_C8_witness :
    (PushUDPHandler.handle (fun _ => none) (fun _ => none) 7 c8sink
        "raw_wn#a:int:1;b:str:x,y").2.last =
      some [("a", PyVal.vint 1), ("b", PyVal.vlist [PyVal.vstr "x", PyVal.vstr "y"])] :=
  (claim_C8 (fun _ => none) (fun _ => none) 7 c8sink "raw_wn#a:int:1;b:str:x,y"
      "a:int:1;b:str:x,y"
      [("a", PyVal.vint 1), ("b", PyVal.vlist [PyVal.vstr "x", PyVal.vstr "y"])]
      rfl rfl).1

/-! ### The websocket subscription gateway (`websocket_server.py`)

`DATA` of the websocket server maps a `host:port` source id to a record
whose three fields start as `None` and are filled by the source's
`UDPConnection` poller; a client connection owns a list of
subscriptions.  Replies are the Python objects handed to
`json_send_message`; an uncaught exception inside a handler (`none`)
means no reply is sent and the frame handler errors. -/

/-- One entry of the websocket server's `DATA` dict. -/
structure SourceRec where
  data : Option (List (Int × Int))
  codenames : Option (List String)
  sane_interval : Option Int

/-- `'{}'.format(x)` on an optional integer (`None` prints as `None`). -/
def pyStrOptInt : Option Int → String
  | none => "None"
  | some n => toString n

/-- `MALFORMED_SUBSCRIPTION.format(msg)`. -/
def MALFORMED_SUBSCRIPTION (msg : String) : String :=
  "Error: Malformed subscription line: " ++ msg

/-- `list.index` returning `none` for a missing element (Python raises
`ValueError`). -/
def pyIndexOf : List String → String → Option Nat
  | [], _ => none
  | x :: xs, s => if x = s then some 0 else (pyIndexOf xs s).map (· + 1)

namespace CinfWebSocketHandler

/-- A reply object handed to `json_send_message`: either the
`[number, [[x, y], ...]]` list of `get_data` or a plain string. -/
inductive WsReply where
  | jarr : Int → List (Int × Int) → WsReply
  | jstr : String → WsReply
  deriving DecidableEq

/-- The body of `subscribe` once `port_ip` and the codename string are
split out: the emptiness validation, the append, and the reply
(`none` when the `DATA[port_ip]` lookup raises `KeyError` — note the
subscription has already been appended at that point). -/
def subscribeArgs (known : List (String × SourceRec))
    (subs : List (String × List String)) (msg port_ip cstr : String) :
    List (String × List String) × Option String :=
  if port_ip = "" ∨ "" ∈ pySplit cstr ',' then
    (subs, some (MALFORMED_SUBSCRIPTION msg))
  else
    match dlookup known port_ip with
    | none => (subs ++ [(port_ip, pySplit cstr ',')], none)
    | some sr =>
      (subs ++ [(port_ip, pySplit cstr ',')],
        some (msg ++ "#" ++ toString subs.length ++ "#" ++ pyStrOptInt sr.sane_interval))

/-- Dispatch on the `;`-split of the part after `#`; any shape other
than exactly two pieces is an uncaught unpacking `ValueError`. -/
def subscribeSplit (known : List (String × SourceRec))
    (subs : List (String × List String)) (msg : String) :
    List String → List (String × List String) × Option String
  | [port_ip, cstr] => subscribeArgs known subs msg port_ip cstr
  | _ => (subs, none)

/-- `CinfWebSocketHandler.subscribe`: split on `#`, split the argument
part on `;`, validate only that the source id and the codenames are
non-empty, append and reply. -/
def subscribe (known : List (String × SourceRec))
    (subs : List (String × List String)) (msg : String) :
    List (String × List String) × Option String :=
  match pySplit msg '#' with
  | [_, args] => subscribeSplit known subs msg (pySplit args ';')
  | _ => (subs, none)

/-- `CinfWebSocketHandler.get_data`: `int(msg)` raises `ValueError` on a
non-numeric message, which the handler's `except TypeError` does not
catch (`none`); an in-range index answers `[number, points]` from the
mirrored record; an out-of-range number answers the invalid-index
string. -/
def get_data (known : List (String × SourceRec))
    (subs : List (String × List String)) (msg : String) : Option WsReply :=
  match parsePyInt msg with
  | none => none
  | some number =>
    if 0 ≤ number ∧ number < subs.length then
      match subs[number.toNat]? with
      | none => none
      | some (port_ip, codenames) =>
        match dlookup known port_ip with
        | none => none
        | some sr =>
          match sr.codenames, sr.data with
          | some cns, some dat =>
            (optMapM (fun cn => (pyIndexOf cns cn).bind (fun i => dat[i]?)) codenames).map
              (fun pts => WsReply.jarr number pts)
          | _, _ => none
    else some (.jstr ("Invalid subscription number: " ++ msg))

end CinfWebSocketHandler

/-! ### The source poller (`UDPConnection`) -/

/-- The poller state: the cooperative stop flag and the mirrored source
record the poller owns. -/
structure PollerState where
  stopped : Bool
  srec : SourceRec

namespace UDPConnection

/-- `UDPConnection.__init__` after the two handshake queries
(`sane_interval`, then `codenames`), each answered within the bounded
receive timeout (`some`) or timed out (`none`, which makes
`_send_and_get` call `stop()`): if either timed out the thread is
marked stopped without performing any action, otherwise the record is
filled in. -/
def init (rec0 : SourceRec) (saneResp : Option Int) (cnResp : Option (List String)) :
    PollerState :=
  if saneResp.isNone || cnResp.isNone then
    { stopped := true, srec := rec0 }
  else
    { stopped := false
      srec := { rec0 with sane_interval := saneResp, codenames := cnResp } }

/-- `UDPConnection.run`: while not stopped, issue one `data` request
(counted), stop on a timeout, otherwise mirror the decoded snapshot.
The response list is the environment; the returned number is how many
`data` requests were issued. -/
def run : List (Option (List (Int × Int))) → PollerState → PollerState × Nat
  | [], st => (st, 0)
  | r :: rest, st =>
    if st.stopped then (st, 0)
    else
      match r with
      | none =>
        let res := run rest { st with stopped := true }
        (res.1, res.2 + 1)
      | some d =>
        let res := run rest { st with srec := { st.srec with data := some d } }
        (res.1, res.2 + 1)

end UDPConnection

/-- Counterexample to C5 as stated: with no mirrored sources, the
subscription message `subscribe#x:1;a` names an unknown source; the
claim says this validation failure is answered with the fixed
malformed-subscription message, but the gateway only checks that the
source id is non-empty, appends the subscription, and then raises
`KeyError` on `DATA[port_ip]` — so no reply at all is sent (and in
particular not the malformed-subscription reply). -/
theorem counterexample_C5 :
    CinfWebSocketHandler.subscribe [] [] "subscribe#x:1;a" = ([("x:1", ["a"])], none) ∧
    (none : Option String) ≠ some (MALFORMED_SUBSCRIPTION "subscribe#x:1;a") ∧
    ([("x:1", ["a"])] : List (String × List String)) ≠ [] :=
  ⟨rfl, by simp, by simp⟩

/-- C5 (amended).  The gateway validates only that the source id is
non-empty and that no codename is empty; on such a failure it replies
the fixed malformed-subscription message with the subscription list
unchanged (and does not close the connection — the handler returns a
reply).  When validation passes and the source id is additionally a
known mirrored source, it appends the subscription at index equal to
the current count and replies
`msg#index#sane_interval`.  (For a non-empty unknown source the
unamended claim fails: see `counterexample_C5`.) -/
theorem claim_C5 (known : List (String × SourceRec)) (subs : List (String × List String))
    (msg w args port_ip cstr : String)
    (hsp : pySplit msg '#' = [w, args])
    (hargs : pySplit args ';' = [port_ip, cstr]) :
    (port_ip = "" ∨ "" ∈ pySplit cstr ',' →
      CinfWebSocketHandler.subscribe known subs msg =
        (subs, some (MALFORMED_SUBSCRIPTION msg)))
    ∧ (∀ sr, port_ip ≠ "" → "" ∉ pySplit cstr ',' → dlookup known port_ip = some sr →
      CinfWebSocketHandler.subscribe known subs msg =
        (subs ++ [(port_ip, pySplit cstr ',')],
          some (msg ++ "#" ++ toString subs.length ++ "#" ++ pyStrOptInt sr.sane_interval))) := by
  have hred : CinfWebSocketHandler.subscribe known subs msg =
      CinfWebSocketHandler.subscribeArgs known subs msg port_ip cstr := by
    unfold CinfWebSocketHandler.subscribe
    rw [hsp]
    show CinfWebSocketHandler.subscribeSplit known subs msg (pySplit args ';') = _
    rw [hargs]
    rfl
  constructor
  · intro hbad
    rw [hred]
    unfold CinfWebSocketHandler.subscribeArgs
    rw [if_pos hbad]
  · intro sr hne hnmem hlk
    rw [hred]
    unfold CinfWebSocketHandler.subscribeArgs
    rw [if_neg (not_or.mpr ⟨hne, hnmem⟩), hlk]

/-- The mirrored source record used by the C5 witness. -/
def c5rec : SourceRec :=
  { data := some [(5, 1)], codenames := some ["t1"], sane_interval := some 2 }

/-- Witness for the amended C5: subscribing to the known source `h:1`
appends at index 0 and replies `subscribe#h:1;t1#0#2`. -/
theorem claim_C5_witness :
    CinfWebSocketHandler.subscribe [("h:1", c5rec)] [] "subscribe#h:1;t1" =
      ([("h:1", ["t1"])], some "subscribe#h:1;t1#0#2") :=
  (claim_C5 [("h:1", c5rec)] [] "subscribe#h:1;t1" "subscribe" "h:1;t1" "h:1" "t1"
      rfl rfl).2 c5rec (by decide) (by decide) rfl

/-- The mirrored `DATA` of the C6 evaluation: one source `h:1` with
codenames `t1, t2` and points `(5,1), (5,2)`. -/
def c6known : List (String × SourceRec) :=
  [("h:1", { data := some [(5, 1), (5, 2)], codenames := some ["t1", "t2"]
             sane_interval := some 1 })]

/-- The client subscriptions of the C6 evaluation. -/
def c6subs : List (String × List String) :=
  [("h:1", ["t1", "t2"])]

/-- C6.  An in-range numeral is answered `[index, [points in the
subscription's order]]` and an out-of-range numeral is answered the
descriptive invalid-index string — but a non-numeric message makes
`int(msg)` raise `ValueError`, which the handler's `except TypeError`
cannot catch, so no reply is sent and the frame handler errors
(evaluated here at the failing input `"abc"`). -/
theorem claim_C6 :
    CinfWebSocketHandler.get_data c6known c6subs "abc" = none ∧
    CinfWebSocketHandler.get_data c6known c6subs "0" =
      some (.jarr 0 [(5, 1), (5, 2)]) ∧
    CinfWebSocketHandler.get_data c6known c6subs "5" =
      some (.jstr "Invalid subscription number: 5") :=
  ⟨rfl, rfl, rfl⟩

/-- C9.  If either handshake query (`sane_interval`, `codenames`) times
out, the poller is marked stopped before `run` begins, and its poll loop
issues zero `data` requests whatever answers the environment would have
given, leaving the state untouched. -/
theorem claim_C9 (rec0 : SourceRec) (saneResp : Option Int) (cnResp : Option (List String))
    (h : saneResp = none ∨ cnResp = none) :
    (UDPConnection.init rec0 saneResp cnResp).stopped = true ∧
    ∀ responses, UDPConnection.run responses (UDPConnection.init rec0 saneResp cnResp) =
      (UDPConnection.init rec0 saneResp cnResp, 0) := by
  have hstop : (UDPConnection.init rec0 saneResp cnResp).stopped = true := by
    unfold UDPConnection.init
    rcases h with h | h <;> subst h <;> simp
  refine ⟨hstop, ?_⟩
  intro responses
  cases responses with
  | nil => rfl
  | cons r rest =>
    simp only [UDPConnection.run]
    rw [if_pos hstop]

/-- Witness for C9: a timed-out `sane_interval` handshake leaves the
poller stopped and the run loop issues no data request even with an
answer available. -/
theorem claim_C9_witness :
    (UDPConnection.init ⟨none, none, none⟩ none (some ["a"])).stopped = true ∧
    UDPConnection.run [some [(1, 2)]] (UDPConnection.init ⟨none, none, none⟩ none (some ["a"])) =
      (UDPConnection.init ⟨none, none, none⟩ none (some ["a"]), 0) :=
  ⟨(claim_C9 ⟨none, none, none⟩ none (some ["a"]) (Or.inl rfl)).1,
    (claim_C9 ⟨none, none, none⟩ none (some ["a"]) (Or.inl rfl)).2 [some [(1, 2)]]⟩

end PyExpLabSys
